import Mathlib

/-!
Verification of the snake-game simulation core (`src/main.rs`).

The game logic is a set of Bevy systems acting on a small amount of state:
the `SnakeSegments` resource (ordered list of segment entities, head first),
the head's `Direction`, the `LastSnakeSegmentPosition` resource, the set of
live `Food` entities (each carrying a `Position`), and two event channels
(`GrowthEvent`, `GameOverEvent`).

We embed that state as `GameState` and each system as a state transformer.
Segment entities are represented by their `Position` components (the only
data the logic reads or writes), kept in the order of the `SnakeSegments`
resource, head first.  Event channels are represented by counts of pending
events; a Bevy reader that consumes `iter().next()` acts at most once per
tick and unread events are dropped by the event buffer before the next
logic tick (0.2 s ≫ the per-frame clearing cadence), so a system that reads
a channel leaves it empty.

Rust `i32` coordinates are embedded as `Int`: every arithmetic operation
performed on them is `±1` on values that stay far from the `i32` range
bounds, so exact integer arithmetic is faithful.  The bounds check
`head_pos.x as u32 >= GRID_WIDTH` is evaluated after `head_pos.x < 0` has
short-circuited, so for the remaining `x ≥ 0` (and `x < 2^31`, being an
`i32`) the `u32` cast is the identity and the check is `x ≥ 20`.
-/

/-- `GRID_WIDTH` from the source (`const GRID_WIDTH: u32 = 20`). -/
def GRID_WIDTH : Int := 20

/-- `GRID_HEIGHT` from the source (`const GRID_HEIGHT: u32 = 20`). -/
def GRID_HEIGHT : Int := 20

/-- The `Position` component: a grid coordinate. -/
structure Position where
  x : Int
  y : Int
deriving DecidableEq, Repr

/-- The `Direction` enum. -/
inductive Direction where
  | Up
  | Left
  | Right
  | Down
deriving DecidableEq, Repr

/-- `Direction::opposite`. -/
def Direction.opposite : Direction → Direction
  | .Up => .Down
  | .Left => .Right
  | .Right => .Left
  | .Down => .Up

/-- The simulation state: the `SnakeSegments` resource (positions of the
segment entities, head first), the head's `direction` field, the
`LastSnakeSegmentPosition` resource, the positions of live `Food` entities,
and the pending events of the two event channels. -/
structure GameState where
  segments : List Position
  direction : Direction
  lastSegmentPos : Option Position
  foods : List Position
  growthEvents : Nat
  gameOverEvents : Nat
deriving DecidableEq, Repr

/-- The keyboard snapshot read by `snake_movement_input`: which of the four
directional keys are currently pressed. -/
structure KbdInput where
  up : Bool
  left : Bool
  right : Bool
  down : Bool
deriving DecidableEq, Repr

/-- Head displacement in `snake_movement`'s `match &head.direction`. -/
def stepHead (dir : Direction) (p : Position) : Position :=
  match dir with
  | .Up => { p with y := p.y + 1 }
  | .Left => { p with x := p.x - 1 }
  | .Right => { p with x := p.x + 1 }
  | .Down => { p with y := p.y - 1 }

/-- The boundary test in `snake_movement`:
`head_pos.x < 0 || head_pos.y < 0 || head_pos.x as u32 >= GRID_WIDTH ||
head_pos.y as u32 >= GRID_HEIGHT` (the casts are identities because the
negative cases short-circuit first, see the header comment). -/
def out_of_bounds (p : Position) : Bool :=
  p.x < 0 || p.y < 0 || p.x ≥ GRID_WIDTH || p.y ≥ GRID_HEIGHT

/-- `spawn_snake`: replaces the `SnakeSegments` resource with a fresh head
at `(3, 3)` with direction `Up` and one body segment at `(3, 2)`.  Touches
no other state. -/
def spawn_snake (s : GameState) : GameState :=
  { s with
    segments := [⟨3, 3⟩, ⟨3, 2⟩]
    direction := Direction.Up }

/-- `snake_movement`: if a head exists (the segment list is nonempty),
captures `segment_positions` (all pre-move positions), moves the head one
cell in its direction, sends a `GameOverEvent` when the new head position
is out of bounds or contained in the captured pre-move positions, shifts
each trailing segment to the pre-move position of the segment in front of
it (`zip` with `skip(1)`), and records the pre-move position of the last
segment in `LastSnakeSegmentPosition`.  With no head, a no-op. -/
def snake_movement (s : GameState) : GameState :=
  match s.segments with
  | [] => s
  | h :: t =>
    let headPos := stepHead s.direction h
    let hitWallOrBody := out_of_bounds headPos || (h :: t).contains headPos
    { s with
      segments := headPos :: (h :: t).dropLast
      lastSegmentPos := (h :: t).getLast?
      gameOverEvents := s.gameOverEvents + (if hitWallOrBody then 1 else 0) }

/-- The `let dir` chain of `snake_movement_input`: the requested direction,
resolved from the pressed keys in the source's `if`/`else if` order, falling
back to the current heading when no directional key is pressed. -/
def requestedDir (kbd : KbdInput) (current : Direction) : Direction :=
  if kbd.up then .Up
  else if kbd.left then .Left
  else if kbd.right then .Right
  else if kbd.down then .Down
  else current

/-- `snake_movement_input`: sets the head's direction to the requested
direction unless it equals the opposite of the current direction. -/
def snake_movement_input (kbd : KbdInput) (s : GameState) : GameState :=
  let dir := requestedDir kbd s.direction
  if dir ≠ s.direction.opposite then { s with direction := dir } else s

/-- `snake_eating`: for the head position, despawns every food entity whose
position equals it and sends one `GrowthEvent` per such food.  Despawn
commands are buffered, so the iteration sees the food set fixed at system
start; the net effect is removing all matching foods. -/
def snake_eating (s : GameState) : GameState :=
  match s.segments.head? with
  | none => s
  | some hp =>
    { s with
      foods := s.foods.filter (fun f => f ≠ hp)
      growthEvents := s.growthEvents + s.foods.countP (fun f => f = hp) }

/-- `snake_growth`: if at least one `GrowthEvent` is pending, appends one
segment at `LastSnakeSegmentPosition` (the source `unwrap`s it: `none`
panics, embedded as `Option.none`).  Pending growth events are consumed. -/
def snake_growth (s : GameState) : Option GameState :=
  if 0 < s.growthEvents then
    s.lastSegmentPos.map fun p =>
      { s with segments := s.segments ++ [p], growthEvents := 0 }
  else
    some { s with growthEvents := 0 }

/-- `game_over`: if at least one `GameOverEvent` is pending, despawns every
`Food` entity and every `SnakeSegment` entity (the body segments; the head
entity carries `SnakeHead`, not `SnakeSegment`) and calls `spawn_snake`,
which replaces the `SnakeSegments` resource wholesale.  Pending game-over
events are consumed. -/
def game_over (s : GameState) : GameState :=
  if 0 < s.gameOverEvents then
    spawn_snake { s with foods := [], gameOverEvents := 0 }
  else
    { s with gameOverEvents := 0 }

/-- `spawn_food`: spawns one food at
`x = (random::<f32>() * GRID_WIDTH as f32) as i32` and likewise for `y`.
The two `random()` draws are inputs `rx ry ∈ [0,1)`, embedded as exact
rationals; the `f32 → i32` cast truncates toward zero, which on the
nonnegative products equals `Int.floor`. -/
def spawn_food (rx ry : ℚ) (s : GameState) : GameState :=
  { s with foods := s.foods ++ [⟨⌊rx * (20 : ℚ)⌋, ⌊ry * (20 : ℚ)⌋⟩] }

/-- The state after the two startup systems: default resources
(`SnakeSegments` empty, `LastSnakeSegmentPosition` `None`, no food, no
pending events), then `spawn_snake`. -/
def initState : GameState :=
  spawn_snake
    { segments := []
      direction := Direction.Up
      lastSegmentPos := none
      foods := []
      growthEvents := 0
      gameOverEvents := 0 }

/-- States reachable from startup by running the game's systems in any
order and any number of times (each tick runs a subset of them in a fixed
order; closure under arbitrary interleavings subsumes the real schedule). -/
inductive Reachable : GameState → Prop where
  | init : Reachable initState
  | input (s : GameState) (kbd : KbdInput) :
      Reachable s → Reachable (snake_movement_input kbd s)
  | move (s : GameState) : Reachable s → Reachable (snake_movement s)
  | gameOverStep (s : GameState) : Reachable s → Reachable (game_over s)
  | eat (s : GameState) : Reachable s → Reachable (snake_eating s)
  | grow (s s' : GameState) :
      Reachable s → snake_growth s = some s' → Reachable s'
  | food (s : GameState) (rx ry : ℚ) :
      Reachable s → Reachable (spawn_food rx ry s)

/-- One logic tick in the source's system order: `snake_movement`, then
`game_over`, then `snake_eating`, then `snake_growth`. -/
def tick (s : GameState) : Option GameState :=
  snake_growth (snake_eating (game_over (snake_movement s)))

/-- The spawn state with a pending `GameOverEvent`. -/
def gameOverState : GameState := { initState with gameOverEvents := 1 }

/-- The spawn state moved to the bottom-left corner, heading `Left`. -/
def wallState : GameState :=
  { initState with segments := [⟨0, 0⟩, ⟨0, 1⟩], direction := Direction.Left }

/-- A state whose head, heading `Up`, is about to run into its body
segment at `(3, 4)`. -/
def collideState : GameState := { initState with segments := [⟨3, 3⟩, ⟨3, 4⟩] }

/-- The spawn state with one food under the head and one food elsewhere. -/
def eatState : GameState := { initState with foods := [⟨3, 3⟩, ⟨5, 5⟩] }

/-- The spawn state with two pending `GrowthEvent`s and a recorded last
vacated position. -/
def growState : GameState :=
  { initState with growthEvents := 2, lastSegmentPos := some ⟨3, 2⟩ }

/-- The spec's example scenario: the spawn snake (head `(3,3)` heading
`Up`, segment `(3,2)`) with a food at `(3, 4)`. -/
def foodTickState : GameState := { initState with foods := [⟨3, 4⟩] }

/-! ### Helper lemmas -/

theorem Direction.opposite_ne (d : Direction) : d.opposite ≠ d := by
  cases d <;> simp [Direction.opposite]

theorem ne_opposite_self (d : Direction) : d ≠ d.opposite := by
  cases d <;> simp [Direction.opposite]

theorem getElem?_dropLast_of_lt {α : Type} :
    ∀ (l : List α) (i : Nat), i + 1 < l.length → l.dropLast[i]? = l[i]?
  | [], i, h => by simp at h
  | [_], i, h => by simp at h
  | a :: b :: l, 0, _ => by simp [List.dropLast_cons₂]
  | a :: b :: l, i + 1, h => by
    have ih := getElem?_dropLast_of_lt (b :: l) i (by simpa using h)
    simpa [List.dropLast_cons₂] using ih

theorem snake_movement_input_segments (kbd : KbdInput) (s : GameState) :
    (snake_movement_input kbd s).segments = s.segments := by
  by_cases hc : requestedDir kbd s.direction ≠ s.direction.opposite <;>
    simp [snake_movement_input, hc]

theorem snake_eating_segments (s : GameState) :
    (snake_eating s).segments = s.segments := by
  unfold snake_eating
  split <;> rfl

theorem spawn_food_segments (rx ry : ℚ) (s : GameState) :
    (spawn_food rx ry s).segments = s.segments := rfl

theorem snake_movement_length (s : GameState) :
    (snake_movement s).segments.length = s.segments.length := by
  unfold snake_movement
  split
  · rfl
  · next h t heq =>
    simp [heq, List.length_dropLast]

/-! ### Claims -/

/-- C1: after `game_over` handles a pending `GameOverEvent`, the snake is
exactly the spawn configuration — head at `(3,3)` heading `Up` and one
trailing segment at `(3,2)` — and no food entity and no body-segment entity
of the prior game remains. -/
theorem game_over_resets_to_spawn (s : GameState) (hev : 0 < s.gameOverEvents) :
    (game_over s).segments = [⟨3, 3⟩, ⟨3, 2⟩]
    ∧ (game_over s).direction = Direction.Up
    ∧ (game_over s).foods = [] := by
  simp [game_over, hev, spawn_snake]

theorem game_over_resets_to_spawn_witness :
    0 < gameOverState.gameOverEvents
    ∧ (game_over gameOverState).segments = [⟨3, 3⟩, ⟨3, 2⟩]
    ∧ (game_over gameOverState).foods = [] :=
  ⟨by decide,
   (game_over_resets_to_spawn gameOverState (by decide)).1,
   (game_over_resets_to_spawn gameOverState (by decide)).2.2⟩

/-- C4: if the post-move head position lies outside
`[0, GRID_WIDTH) × [0, GRID_HEIGHT)` (width = height = 20), `snake_movement`
sends a `GameOverEvent` this step.  (The witness checks the concrete case
of a head at `(0,0)` heading `Left`, which moves to `(-1, 0)`.) -/
theorem snake_movement_wall (s : GameState) (h : Position) (t : List Position)
    (hseg : s.segments = h :: t)
    (hout : (stepHead s.direction h).x < 0 ∨ (stepHead s.direction h).y < 0
      ∨ GRID_WIDTH ≤ (stepHead s.direction h).x
      ∨ GRID_HEIGHT ≤ (stepHead s.direction h).y) :
    (snake_movement s).gameOverEvents = s.gameOverEvents + 1 := by
  have hb : out_of_bounds (stepHead s.direction h) = true := by
    simp only [out_of_bounds, Bool.or_eq_true, decide_eq_true_eq, ge_iff_le]
    tauto
  simp [snake_movement, hseg, hb]

theorem snake_movement_wall_witness :
    stepHead Direction.Left ⟨0, 0⟩ = ⟨-1, 0⟩
    ∧ (stepHead Direction.Left ⟨0, 0⟩).x < 0
    ∧ (snake_movement wallState).gameOverEvents = wallState.gameOverEvents + 1 :=
  ⟨by decide, by decide,
   snake_movement_wall wallState ⟨0, 0⟩ [⟨0, 1⟩] rfl (Or.inl (by decide))⟩

/-- C7: the heading after `snake_movement_input` never equals the opposite
of the heading before it; a requested direction equal to the opposite of
the current heading is rejected, leaving the heading unchanged; and with no
directional key pressed the heading is unchanged. -/
theorem snake_movement_input_no_reversal (kbd : KbdInput) (s : GameState) :
    (snake_movement_input kbd s).direction ≠ s.direction.opposite
    ∧ (requestedDir kbd s.direction = s.direction.opposite →
        (snake_movement_input kbd s).direction = s.direction)
    ∧ (kbd.up = false → kbd.left = false → kbd.right = false → kbd.down = false →
        (snake_movement_input kbd s).direction = s.direction) := by
  have hne : s.direction ≠ s.direction.opposite := ne_opposite_self s.direction
  by_cases hreq : requestedDir kbd s.direction = s.direction.opposite
  · refine ⟨?_, fun _ => ?_, fun hu hl hr hd => ?_⟩
    · simpa [snake_movement_input, hreq] using hne
    · simp [snake_movement_input, hreq]
    · exfalso
      apply hne
      rw [← hreq]
      simp [requestedDir, hu, hl, hr, hd]
  · refine ⟨?_, fun hc => absurd hc hreq, fun hu hl hr hd => ?_⟩
    · simp [snake_movement_input, hreq]
    · have hcur : requestedDir kbd s.direction = s.direction := by
        simp [requestedDir, hu, hl, hr, hd]
      simp [snake_movement_input, hcur, hne]

theorem snake_movement_input_no_reversal_witness :
    requestedDir ⟨false, false, false, true⟩ Direction.Up = Direction.Up.opposite
    ∧ (snake_movement_input ⟨false, false, false, true⟩ initState).direction
        = initState.direction :=
  ⟨by decide,
   (snake_movement_input_no_reversal ⟨false, false, false, true⟩ initState).2.1 (by decide)⟩

/-- C9: for every pair of random draws `rx, ry ∈ [0,1)`, the food spawned
by `spawn_food` lies inside the grid: `0 ≤ x < GRID_WIDTH` and
`0 ≤ y < GRID_HEIGHT`. -/
theorem spawn_food_in_grid (rx ry : ℚ) (s : GameState)
    (hx0 : 0 ≤ rx) (hx1 : rx < 1) (hy0 : 0 ≤ ry) (hy1 : ry < 1) :
    ∃ f : Position, (spawn_food rx ry s).foods = s.foods ++ [f]
      ∧ 0 ≤ f.x ∧ f.x < GRID_WIDTH ∧ 0 ≤ f.y ∧ f.y < GRID_HEIGHT := by
  refine ⟨⟨⌊rx * (20 : ℚ)⌋, ⌊ry * (20 : ℚ)⌋⟩, rfl, ?_, ?_, ?_, ?_⟩
  · exact Int.le_floor.mpr (by push_cast; positivity)
  · show ⌊rx * (20 : ℚ)⌋ < GRID_WIDTH
    rw [show GRID_WIDTH = (20 : Int) from rfl]
    exact Int.floor_lt.mpr (by push_cast; nlinarith)
  · exact Int.le_floor.mpr (by push_cast; positivity)
  · show ⌊ry * (20 : ℚ)⌋ < GRID_HEIGHT
    rw [show GRID_HEIGHT = (20 : Int) from rfl]
    exact Int.floor_lt.mpr (by push_cast; nlinarith)

theorem spawn_food_in_grid_witness :
    (0 ≤ (1/2 : ℚ) ∧ (1/2 : ℚ) < 1)
    ∧ ∃ f : Position, (spawn_food (1/2) (1/2) initState).foods = initState.foods ++ [f]
      ∧ 0 ≤ f.x ∧ f.x < GRID_WIDTH ∧ 0 ≤ f.y ∧ f.y < GRID_HEIGHT :=
  ⟨⟨by norm_num, by norm_num⟩,
   spawn_food_in_grid (1/2) (1/2) initState (by norm_num) (by norm_num)
     (by norm_num) (by norm_num)⟩

/-- C10: the requested direction is resolved from simultaneously held keys
by the fixed priority `Up` over `Left` over `Right` over `Down` — it
depends only on the highest-priority held key, lower-priority keys being
ignored — and the heading update uses exactly that requested direction. -/
theorem requestedDir_priority (l r d : Bool) (cur : Direction)
    (kbd : KbdInput) (s : GameState) :
    requestedDir ⟨true, l, r, d⟩ cur = Direction.Up
    ∧ requestedDir ⟨false, true, r, d⟩ cur = Direction.Left
    ∧ requestedDir ⟨false, false, true, d⟩ cur = Direction.Right
    ∧ requestedDir ⟨false, false, false, true⟩ cur = Direction.Down
    ∧ snake_movement_input kbd s =
        (if requestedDir kbd s.direction ≠ s.direction.opposite
          then { s with direction := requestedDir kbd s.direction } else s) :=
  ⟨rfl, rfl, rfl, rfl, rfl⟩

/-- C2: one `snake_movement` step moves a (nonempty) snake's head exactly
one cell in its heading — `Up`: `y+1`, `Down`: `y-1`, `Left`: `x-1`,
`Right`: `x+1` — keeps the segment count, and gives each non-head segment
the pre-move position of the segment immediately ahead of it. -/
theorem snake_movement_follow (s : GameState) (h : Position) (t : List Position)
    (hseg : s.segments = h :: t) :
    (snake_movement s).segments.head? = some (match s.direction with
        | .Up => ⟨h.x, h.y + 1⟩
        | .Down => ⟨h.x, h.y - 1⟩
        | .Left => ⟨h.x - 1, h.y⟩
        | .Right => ⟨h.x + 1, h.y⟩)
    ∧ (snake_movement s).segments.length = s.segments.length
    ∧ ∀ i : Nat, i + 1 < s.segments.length →
        (snake_movement s).segments[i + 1]? = s.segments[i]? := by
  have hsm : (snake_movement s).segments = stepHead s.direction h :: (h :: t).dropLast := by
    simp [snake_movement, hseg]
  refine ⟨?_, snake_movement_length s, ?_⟩
  · rw [hsm]
    cases s.direction <;> rfl
  · intro i hi
    rw [hseg] at hi
    rw [hsm, hseg, List.getElem?_cons_succ]
    exact getElem?_dropLast_of_lt (h :: t) i hi

theorem snake_movement_follow_witness :
    (snake_movement initState).segments.head? = some ⟨3, 4⟩
    ∧ (snake_movement initState).segments[1]? = initState.segments[0]? :=
  ⟨by simpa [initState, spawn_snake] using
      (snake_movement_follow initState ⟨3, 3⟩ [⟨3, 2⟩] rfl).1,
   (snake_movement_follow initState ⟨3, 3⟩ [⟨3, 2⟩] rfl).2.2 0 (by decide)⟩

/-- C3: `snake_movement` sends a `GameOverEvent` exactly when the post-move
head position is out of bounds or equals one of the positions captured
before the body shift; in particular hitting any pre-move body-segment
position raises the signal this step. -/
theorem snake_movement_self_collision (s : GameState) (h : Position) (t : List Position)
    (hseg : s.segments = h :: t) :
    (snake_movement s).gameOverEvents = s.gameOverEvents +
      (if out_of_bounds (stepHead s.direction h)
          || (h :: t).contains (stepHead s.direction h) then 1 else 0)
    ∧ (stepHead s.direction h ∈ t →
        (snake_movement s).gameOverEvents = s.gameOverEvents + 1) := by
  constructor
  · simp [snake_movement, hseg]
  · intro hmem
    have hc : (h :: t).contains (stepHead s.direction h) = true :=
      List.elem_eq_true_of_mem (List.mem_cons_of_mem h hmem)
    have hcond : (out_of_bounds (stepHead s.direction h)
        || (h :: t).contains (stepHead s.direction h)) = true := by
      rw [hc, Bool.or_true]
    simp only [snake_movement, hseg, hcond]
    simp

theorem snake_movement_self_collision_witness :
    stepHead collideState.direction ⟨3, 3⟩ ∈ [(⟨3, 4⟩ : Position)]
    ∧ (snake_movement collideState).gameOverEvents = collideState.gameOverEvents + 1 :=
  ⟨by decide,
   (snake_movement_self_collision collideState ⟨3, 3⟩ [⟨3, 4⟩] rfl).2 (by decide)⟩

/-- C5: when the head position carries food, `snake_eating` removes every
food at that position and sends one `GrowthEvent` per food removed (other
foods are kept); and whenever one or more `GrowthEvent`s are pending,
`snake_growth` appends exactly one segment, dropping the extra signals. -/
theorem snake_eating_single_growth (s : GameState) (hp : Position)
    (hhead : s.segments.head? = some hp) :
    hp ∉ (snake_eating s).foods
    ∧ (∀ f : Position, f ∈ s.foods → f ≠ hp → f ∈ (snake_eating s).foods)
    ∧ (snake_eating s).growthEvents
        = s.growthEvents + s.foods.countP (fun f => f = hp)
    ∧ ∀ s' : GameState, ∀ p : Position, s'.lastSegmentPos = some p →
        0 < s'.growthEvents →
        snake_growth s'
          = some { s' with segments := s'.segments ++ [p], growthEvents := 0 } := by
  have he : snake_eating s
      = { s with
          foods := s.foods.filter (fun f => f ≠ hp)
          growthEvents := s.growthEvents + s.foods.countP (fun f => f = hp) } := by
    simp [snake_eating, hhead]
  refine ⟨?_, ?_, ?_, ?_⟩
  · rw [he]
    simp
  · intro f hf hne
    rw [he]
    simp [List.mem_filter, hf, hne]
  · rw [he]
  · intro s' p hlast hgrow
    simp [snake_growth, hgrow, hlast]

theorem snake_eating_single_growth_witness :
    ((⟨3, 3⟩ : Position) ∉ (snake_eating eatState).foods)
    ∧ 0 < growState.growthEvents
    ∧ snake_growth growState
        = some { growState with segments := growState.segments ++ [⟨3, 2⟩], growthEvents := 0 } :=
  ⟨(snake_eating_single_growth eatState ⟨3, 3⟩ rfl).1,
   by decide,
   (snake_eating_single_growth eatState ⟨3, 3⟩ rfl).2.2.2 growState ⟨3, 2⟩ rfl (by decide)⟩

/-- C6: `snake_movement` records the pre-move position of the last segment
as the last vacated position, `snake_growth` appends its new segment
exactly there, and in the spec's example — spawn snake, food at `(3,4)` —
one tick leaves 3 segments with the new tail at `(3,2)`. -/
theorem snake_growth_at_vacated (s : GameState) (h : Position) (t : List Position)
    (hseg : s.segments = h :: t) :
    (snake_movement s).lastSegmentPos = some ((h :: t).getLast (List.cons_ne_nil h t))
    ∧ (∀ s' : GameState, ∀ p : Position, s'.lastSegmentPos = some p →
        0 < s'.growthEvents →
        (snake_growth s').map (fun u => u.segments) = some (s'.segments ++ [p]))
    ∧ (tick foodTickState).map (fun u => u.segments)
        = some [⟨3, 4⟩, ⟨3, 3⟩, ⟨3, 2⟩] := by
  refine ⟨?_, ?_, ?_⟩
  · simp [snake_movement, hseg, List.getLast?_eq_getLast]
  · intro s' p hlast hgrow
    simp [snake_growth, hgrow, hlast]
  · decide

theorem snake_growth_at_vacated_witness :
    (snake_movement initState).lastSegmentPos
      = some ((⟨3, 3⟩ :: [⟨3, 2⟩] : List Position).getLast (List.cons_ne_nil _ _))
    ∧ (tick foodTickState).map (fun u => u.segments)
        = some [⟨3, 4⟩, ⟨3, 3⟩, ⟨3, 2⟩] :=
  ⟨(snake_growth_at_vacated initState ⟨3, 3⟩ [⟨3, 2⟩] rfl).1,
   (snake_growth_at_vacated initState ⟨3, 3⟩ [⟨3, 2⟩] rfl).2.2⟩

/-- C8: every reachable state has at least one snake segment; the initial
spawn creates 2 segments, `snake_movement` preserves the segment count,
`snake_growth` only appends, and `game_over` reinitializes to 2 segments. -/
theorem snake_segments_nonempty :
    (∀ s : GameState, Reachable s → 1 ≤ s.segments.length)
    ∧ initState.segments.length = 2
    ∧ (∀ s : GameState, (snake_movement s).segments.length = s.segments.length)
    ∧ (∀ s s' : GameState, snake_growth s = some s' →
        s'.segments = s.segments ∨ ∃ p : Position, s'.segments = s.segments ++ [p])
    ∧ (∀ s : GameState, 0 < s.gameOverEvents → (game_over s).segments.length = 2) := by
  have hgrow : ∀ s s' : GameState, snake_growth s = some s' →
      s'.segments = s.segments ∨ ∃ p : Position, s'.segments = s.segments ++ [p] := by
    intro s s' hg
    unfold snake_growth at hg
    split at hg
    · cases hlast : s.lastSegmentPos with
      | none => rw [hlast] at hg; simp at hg
      | some p =>
        rw [hlast] at hg
        simp at hg
        right
        exact ⟨p, by rw [← hg]⟩
    · left
      simp only [Option.some.injEq] at hg
      rw [← hg]
  have hgo : ∀ s : GameState, 0 < s.gameOverEvents → (game_over s).segments.length = 2 := by
    intro s hev
    simp [game_over, hev, spawn_snake]
  refine ⟨?_, rfl, snake_movement_length, hgrow, hgo⟩
  intro s hr
  induction hr with
  | init => decide
  | input s' kbd _ ih => rw [snake_movement_input_segments]; exact ih
  | move s' _ ih => rw [snake_movement_length]; exact ih
  | gameOverStep s' _ ih =>
    by_cases hev : 0 < s'.gameOverEvents
    · rw [hgo s' hev]
      decide
    · have hkeep : game_over s' = { s' with gameOverEvents := 0 } := by
        simp [game_over, hev]
      rw [hkeep]
      exact ih
  | eat s' _ ih => rw [snake_eating_segments]; exact ih
  | grow s' s'' _ hg ih =>
    rcases hgrow s' s'' hg with heq | ⟨p, heq⟩
    · rw [heq]
      exact ih
    · rw [heq, List.length_append]
      omega
  | food s' rx ry _ ih => rw [spawn_food_segments]; exact ih

theorem snake_segments_nonempty_witness :
    1 ≤ initState.segments.length :=
  snake_segments_nonempty.1 initState Reachable.init
